import Mathlib

/-!
Shallow embedding of `src/main.py`: a batch pipeline that splits a video into
fixed-length chunks, extracts each chunk's audio, lazily normalizes it to the
recognizer's WAV format, and runs an offline recognizer producing timestamped
transcript lines.

Pure Python string and arithmetic operations are modelled over `String`, `ℚ`
and `List`.  The external collaborators (moviepy, the `wave` module, the Vosk
recognizer, the filesystem) are modelled by the data they hand back to the
script: parsed WAV headers, the sequence of nonempty frame reads, and the
finalized word events of each read.
-/

namespace SpeechPipeline

/-- One finalized word event from the recognizer: the word text together with
its decoder-reported start offset (seconds, relative to the audio fed to the
recognizer), as found in the `result["result"]` entries of `main.py`. -/
structure WordInfo where
  word : String
  start : ℚ
deriving DecidableEq, Repr

/-- Token counter over a character list with separator `' '`: the helper
computing `len(s.split())` for the buffer strings of `main.py`, whose only
whitespace is the single spaces inserted by `buffer += f" {word}"`.  The flag
records whether the scan is currently inside a token. -/
def countTokensAux : Bool → List Char → Nat
  | _, [] => 0
  | inWord, c :: cs =>
    if c = ' ' then countTokensAux false cs
    else (if inWord then 0 else 1) + countTokensAux true cs

/-- Number of `' '`-separated tokens of `s`: `len(s.split())` at line 231 of
`main.py`. -/
def tokenCount (s : String) : Nat := countTokensAux false s.data

/-- Characters of `s.strip()` for strings whose only whitespace is `' '`. -/
def stripChars (l : List Char) : List Char :=
  ((l.dropWhile (fun c => c = ' ')).reverse.dropWhile (fun c => c = ' ')).reverse

/-- Python `s.strip()` (the buffers of `main.py` contain no whitespace other
than `' '`). -/
def pyStrip (s : String) : String := String.mk (stripChars s.data)

/-- Python `a % b` for `b > 0` (result in `[0, b)`), over `ℚ`. -/
def pyMod (a b : ℚ) : ℚ := a - b * ⌊a / b⌋

/-- One transcript line `[MM:SS] text` as written by `file.write` in
`recognize_speech_from_audio`. -/
structure Line where
  minutes : ℤ
  seconds : ℤ
  text : String
deriving DecidableEq, Repr

/-- Python `f"{n:02}"` formatting of an integer. -/
def pad2 (n : ℤ) : String := if 0 ≤ n ∧ n < 10 then "0" ++ toString n else toString n

/-- Rendering of a transcript line, `f"[{minutes:02}:{seconds:02}] {text}\n"`. -/
def renderLine (l : Line) : String :=
  "[" ++ pad2 l.minutes ++ ":" ++ pad2 l.seconds ++ "] " ++ l.text ++ "\n"

/-- One iteration of `wf.readframes(4000)`: the number of frames the `wave`
module returned (the returned byte string has `frames * sampwidth * nchannels`
bytes) together with the finalized words the recognizer produced for this
block (`[]` when `AcceptWaveform` returned false or the finalized result held
no `"result"` words — in either case the word loop body does not run). -/
structure Block where
  frames : Nat
  words : List WordInfo
deriving DecidableEq, Repr

/-- WAV header data (`getnchannels`, `getsampwidth`, `getframerate`). -/
structure WavInfo where
  nchannels : Nat
  sampwidth : Nat
  framerate : Nat
deriving DecidableEq, Repr

/-- A parsed WAV file: its header plus the sequence of nonempty reads the
decode loop performs before `readframes` returns an empty byte string. -/
structure WavFile where
  info : WavInfo
  blocks : List Block
deriving DecidableEq, Repr

/-- Byte length `len(data)` of a block of `frames` frames read from a file
with header `info` (`wave.readframes` returns `frames * sampwidth * nchannels`
bytes). -/
def lenData (info : WavInfo) (frames : Nat) : Nat :=
  frames * info.sampwidth * info.nchannels

/-- State of the decode loop: the word buffer, the lines written to the
transcript file so far, and the `current_time` accumulator. -/
structure TState where
  buffer : String
  lines : List Line
  current_time : ℚ
deriving DecidableEq, Repr

/-- Lines 226-234 of `main.py`: processing of one `word_info` of a finalized
result.  `word_start = word_info["start"] + current_time`; a flush happens
when `len(buffer.split()) >= 10 or (word_start - current_time) >= 5`; the
flushed line is tagged `int(word_start // 60)` and `int(word_start % 60)`
(for the nonnegative value of `%` with modulus 60, `int` truncation equals
the floor) and carries `buffer.strip()`; afterwards the word is appended to
the buffer as `f" {word}"`. -/
def processWord (current_time : ℚ) (st : String × List Line) (wi : WordInfo) :
    String × List Line :=
  let word_start := wi.start + current_time
  let minutes : ℤ := ⌊word_start / 60⌋
  let seconds : ℤ := ⌊pyMod word_start 60⌋
  let st :=
    if 10 ≤ tokenCount st.1 ∨ 5 ≤ word_start - current_time then
      ("", st.2 ++ [⟨minutes, seconds, pyStrip st.1⟩])
    else st
  (st.1 ++ " " ++ wi.word, st.2)

/-- One iteration of the `while` loop (lines 219-235 of `main.py`): fold the
block's finalized words with the current accumulator, then advance
`current_time` by `len(data) / wf.getframerate()`. -/
def processBlock (info : WavInfo) (st : TState) (b : Block) : TState :=
  let p := b.words.foldl (processWord st.current_time) (st.buffer, st.lines)
  ⟨p.1, p.2, st.current_time + (lenData info b.frames : ℚ) / (info.framerate : ℚ)⟩

/-- The whole `while` loop, started from an empty buffer and
`current_time = start_time` (lines 215-235 of `main.py`). -/
def decodeLoop (f : WavFile) (start_time : ℚ) : TState :=
  f.blocks.foldl (processBlock f.info) ⟨"", [], start_time⟩

/-- Lines 215-239 of `main.py`: the decode loop followed by the end-of-stream
flush `if buffer.strip(): file.write(f"[{int(current_time // 60):02}:...]")`. -/
def runTranscriber (f : WavFile) (start_time : ℚ) : TState :=
  let st := decodeLoop f start_time
  if pyStrip st.buffer = "" then st
  else
    ⟨st.buffer,
     st.lines ++
       [⟨⌊st.current_time / 60⌋, ⌊pyMod st.current_time 60⌋, pyStrip st.buffer⟩],
     st.current_time⟩

/-! ### Paths, lazy normalization and the recognizer wrapper -/

/-- A filesystem path, as its list of components; `os.path.join(p, c)` and
`Path(p, c)` both append a component. -/
abbrev PyPath := List String

/-- Appending one component to a path (`os.path.join` / `pathlib.Path`). -/
def pathJoin (p : PyPath) (c : String) : PyPath := p ++ [c]

/-- Python `os.path.basename` for a path given by its components. -/
def pyBasename (p : PyPath) : String := p.getLastD ""

/-- Whether `pat` is an initial segment of the second list. -/
def listStartsWith : List Char → List Char → Bool
  | [], _ => true
  | _ :: _, [] => false
  | p :: ps, c :: cs => p == c && listStartsWith ps cs

/-- Replacement of all non-overlapping occurrences of `pat` (nonempty) by
`rep`, scanning left to right; the fuel argument (instantiated with the
string length) only serves termination. -/
def replaceFuel (pat rep : List Char) : Nat → List Char → List Char
  | 0, s => s
  | _ + 1, [] => []
  | n + 1, c :: cs =>
    if listStartsWith pat (c :: cs) then
      rep ++ replaceFuel pat rep n ((c :: cs).drop pat.length)
    else c :: replaceFuel pat rep n cs

/-- Python `s.replace(pat, rep)` for nonempty `pat`: every non-overlapping
occurrence of `pat`, scanned from the left, is replaced by `rep`. -/
def pyReplace (s pat rep : String) : String :=
  String.mk (replaceFuel pat.data rep.data s.data.length s.data)

/-- Lines 160-183 of `main.py`, path logic of `convert_audio_to_vosk_format`:
the converted file is written to
`os.path.join(Path(output_path, 'wav_files'), basename(audio_path).replace(".wav", "_converted.wav"))`
(the audio coercion itself — mono, 16000 Hz — is performed by pydub and is
external).  Returns `converted_path`. -/
def convert_audio_to_vosk_format (audio_path : PyPath) (output_path : PyPath) :
    PyPath :=
  let output_path := pathJoin output_path "wav_files"
  pathJoin output_path (pyReplace (pyBasename audio_path) ".wav" "_converted.wav")

/-- The header-validation check of lines 201-203 of `main.py`:
`wf.getnchannels() != 1 or wf.getsampwidth() != 2 or wf.getframerate() not in (8000, 16000, 32000)`
raises `ValueError` — the check passes iff this returns `true`. -/
def checkWav (w : WavInfo) : Bool :=
  w.nchannels == 1 && w.sampwidth == 2 &&
    (w.framerate == 8000 || w.framerate == 16000 || w.framerate == 32000)

/-- The external world a call of `recognize_speech_from_audio` observes:
whether `os.path.exists(model_path)` holds, the original waveform (`none`
when `wave.open` raises `wave.Error`), and the waveform that normalization
would produce. -/
structure RecEnv where
  model_exists : Bool
  orig : Option WavFile
  converted : WavFile
deriving DecidableEq, Repr

/-- Outcome of the header validation (lines 200-204): `true` iff the original
file parses as WAV and passes `checkWav`; on `false` the `except` branch
invokes the normalizer. -/
def headerOk (env : RecEnv) : Bool :=
  match env.orig with
  | some f => checkWav f.info
  | none => false

/-- Observable trace of one `recognize_speech_from_audio` call. -/
structure RecTrace where
  raisedModelNotFound : Bool
  normalized : Bool
  convertedPath : Option PyPath
  framesRead : Nat
  lines : List Line
  finalTime : ℚ
  retval : Option String
deriving DecidableEq, Repr

/-- Total number of frames the decode loop reads from a waveform. -/
def totalFrames (f : WavFile) : Nat := (f.blocks.map Block.frames).sum

/-- Total `len(data)` byte count the decode loop consumes from a waveform. -/
def totalDataLen (f : WavFile) : Nat :=
  (f.blocks.map (fun b => lenData f.info b.frames)).sum

/-- Lines 186-241 of `main.py`, `recognize_speech_from_audio`: rebinds
`output_dir = Path(output_dir, 'results')`, raises `FileNotFoundError` (the
spec's ModelNotFoundError) when the model path is missing — before opening or
reading the waveform —, lazily normalizes the waveform when the header
validation fails, then runs the decode loop and the end-of-stream flush.  The
Python function body has no `return` statement, so its return value is
`None` (`retval := none`). -/
def recognize_speech_from_audio (env : RecEnv) (audio_path : PyPath)
    (output_dir : PyPath) (start_time : ℚ) : RecTrace :=
  let output_dir := pathJoin output_dir "results"
  if env.model_exists = false then
    { raisedModelNotFound := true, normalized := false, convertedPath := none,
      framesRead := 0, lines := [], finalTime := start_time, retval := none }
  else
    match env.orig with
    | some f =>
      if checkWav f.info then
        let st := runTranscriber f start_time
        { raisedModelNotFound := false, normalized := false,
          convertedPath := none, framesRead := totalFrames f,
          lines := st.lines, finalTime := st.current_time, retval := none }
      else
        let cp := convert_audio_to_vosk_format audio_path output_dir
        let st := runTranscriber env.converted start_time
        { raisedModelNotFound := false, normalized := true,
          convertedPath := some cp, framesRead := totalFrames env.converted,
          lines := st.lines, finalTime := st.current_time, retval := none }
    | none =>
      let cp := convert_audio_to_vosk_format audio_path output_dir
      let st := runTranscriber env.converted start_time
      { raisedModelNotFound := false, normalized := true,
        convertedPath := some cp, framesRead := totalFrames env.converted,
        lines := st.lines, finalTime := st.current_time, retval := none }

/-! ### The pipeline driver -/

/-- Python `str` applied to the return value of the transcription step
(`str(None) = "None"`). -/
def pyStr : Option String → String
  | none => "None"
  | some s => s

/-- One chunk as the driver sees it after extraction: the environment of its
transcription call and its audio path. -/
structure RecChunk where
  env : RecEnv
  audio_path : PyPath
deriving DecidableEq, Repr

/-- Lines 244-255 of `main.py`, `process_video_to_text`: for each extracted
audio chunk, `text = recognize_speech_from_audio(audio_path, model, output_dir)`
— the call site omits `start_time`, so the Python default `start_time=0`
applies to every chunk — then `text = str(text) + '\n'` and
`full_text += text`. -/
def process_video_to_text (chunks : List RecChunk) (output_dir : PyPath) :
    String :=
  chunks.foldl
    (fun full_text c =>
      full_text ++
        pyStr (recognize_speech_from_audio c.env c.audio_path output_dir 0).retval
        ++ "\n")
    ""

/-- The traces of the transcription calls the driver makes, chunk by chunk
(same calls as `process_video_to_text`, with the omitted `start_time`
defaulting to `0`). -/
def driver_traces (chunks : List RecChunk) (output_dir : PyPath) :
    List RecTrace :=
  chunks.map (fun c => recognize_speech_from_audio c.env c.audio_path output_dir 0)

/-- Timestamp of a transcript line, in seconds. -/
def lineStamp (l : Line) : ℤ := 60 * l.minutes + l.seconds

/-! ### The chunker -/

/-- Python `range(0, stop, step)` for `step > 0`: the multiples of `step`
below `stop`. -/
def pyRange (stop step : Nat) : List Nat :=
  (List.range ((stop + step - 1) / step)).map (fun k => k * step)

/-- Lines 15-33 of `main.py`, `split_video`: for each
`start_time in range(0, video_duration, chunk_duration)` one chunk
`(start_time, min(start_time + chunk_duration, video_duration))` is cut
(`video_duration = int(video.duration)`). -/
def split_video (video_duration chunk_duration : Nat) : List (Nat × Nat) :=
  (pyRange video_duration chunk_duration).map
    (fun start_time => (start_time, min (start_time + chunk_duration) video_duration))

/-! ### Buffer shapes -/

/-- Shape of the word buffer after the words `ws` have been appended by
`buffer += f" {word}"`: a leading space before every word. -/
def joinWords : List String → String
  | [] => ""
  | w :: ws => " " ++ w ++ joinWords ws

/-- The words `ws` joined by single spaces (the text span of a flushed
line). -/
def joinSp : List String → String
  | [] => ""
  | w :: ws => w ++ joinWords ws

/-- A word as the buffer logic assumes it: nonempty and without `' '`. -/
def goodToken (w : String) : Prop := w ≠ "" ∧ ∀ c ∈ w.data, c ≠ ' '

instance (w : String) : Decidable (goodToken w) := by
  unfold goodToken; infer_instance

/-- Character-level view of `joinWords`. -/
def joinData : List String → List Char
  | [] => []
  | w :: ws => ' ' :: (w.data ++ joinData ws)

/-- Formalization of C9's phrase "total audio duration consumed": the number
of frames read divided by the frame rate (stated from the claim's words, for
comparison with the code's accumulator). -/
def totalAudioDuration (f : WavFile) : ℚ :=
  (totalFrames f : ℚ) / (f.info.framerate : ℚ)

/-- A 10-second, 16-bit mono 16 kHz chunk waveform whose decoding finalizes
the words `a@1s` and `b@6s` in a single block of 160000 frames. -/
def chunkWav : WavFile := ⟨⟨1, 2, 16000⟩, [⟨160000, [⟨"a", 1⟩, ⟨"b", 6⟩]⟩]⟩

/-- An environment for that chunk: model present, waveform already valid. -/
def chunkEnv : RecEnv := ⟨true, some chunkWav, chunkWav⟩

/-! ### Sanity checks on concrete inputs -/

example : tokenCount " a b" = 2 := by decide

example : pyStrip " a b " = "a b" := by decide

example :
    (runTranscriber ⟨⟨1, 2, 16000⟩, [⟨4000, [⟨"a", 3⟩, ⟨"b", 6⟩]⟩]⟩ 0).lines =
      [⟨0, 6, "a"⟩, ⟨0, 0, "b"⟩] := by with_unfolding_all decide

example : pyReplace "chunk_0-300.wav" ".wav" "_converted.wav"
    = "chunk_0-300_converted.wav" := by decide

example : pyReplace "a.wav.wav" ".wav" "_x.wav" = "a_x.wav_x.wav" := by decide

example : split_video 7 3 = [(0, 3), (3, 6), (6, 7)] := by decide

example : pyRange 0 5 = [] := by decide

example : joinWords ["a", "b"] = " a b" := by decide

example : joinSp ["a", "b"] = "a b" := by decide

/-! ### Buffer lemmas -/

lemma joinWords_data (ws : List String) : (joinWords ws).data = joinData ws := by
  induction ws with
  | nil => rfl
  | cons w ws ih => simp [joinWords, joinData, ih]

lemma joinSp_data (w : String) (ws : List String) :
    (joinSp (w :: ws)).data = w.data ++ joinData ws := by
  simp [joinSp, joinWords_data]

lemma countTokensAux_true_append (xs ys : List Char) (h : ∀ c ∈ xs, c ≠ ' ') :
    countTokensAux true (xs ++ ys) = countTokensAux true ys := by
  induction xs with
  | nil => rfl
  | cons c cs ih =>
    have hc : c ≠ ' ' := h c (by simp)
    simp only [List.cons_append, countTokensAux, if_neg hc]
    simpa using ih (fun d hd => h d (by simp [hd]))

lemma countTokensAux_false_append (xs ys : List Char) (hne : xs ≠ [])
    (h : ∀ c ∈ xs, c ≠ ' ') :
    countTokensAux false (xs ++ ys) = 1 + countTokensAux true ys := by
  cases xs with
  | nil => exact absurd rfl hne
  | cons c cs =>
    have hc : c ≠ ' ' := h c (by simp)
    have hcs : ∀ d ∈ cs, d ≠ ' ' := fun d hd => h d (by simp [hd])
    simp [countTokensAux, hc, countTokensAux_true_append cs ys hcs]

lemma countTokensAux_true_joinData (ws : List String) :
    countTokensAux true (joinData ws) = countTokensAux false (joinData ws) := by
  cases ws with
  | nil => rfl
  | cons w ws => simp [joinData, countTokensAux]

lemma data_ne_nil_of_goodToken {w : String} (h : goodToken w) : w.data ≠ [] := by
  intro hd
  exact h.1 (String.ext (by rw [hd]))

lemma countTokensAux_false_joinData (ws : List String)
    (h : ∀ w ∈ ws, goodToken w) :
    countTokensAux false (joinData ws) = ws.length := by
  induction ws with
  | nil => rfl
  | cons w ws ih =>
    have hw := h w (by simp)
    simp only [joinData, countTokensAux, if_pos rfl]
    rw [countTokensAux_false_append w.data (joinData ws)
          (data_ne_nil_of_goodToken hw) hw.2,
        countTokensAux_true_joinData,
        ih (fun x hx => h x (by simp [hx]))]
    simp [Nat.add_comm]

/-- The token count of a buffer holding the words `ws` is `ws.length`. -/
lemma tokenCount_joinWords (ws : List String) (h : ∀ w ∈ ws, goodToken w) :
    tokenCount (joinWords ws) = ws.length := by
  rw [tokenCount, joinWords_data, countTokensAux_false_joinData ws h]

lemma dropWhile_eq_self_of_head {l : List Char} {c : Char}
    (h : l.head? = some c) (hc : c ≠ ' ') :
    l.dropWhile (fun x => x = ' ') = l := by
  cases l with
  | nil => simp at h
  | cons a as =>
    simp only [List.head?_cons, Option.some.injEq] at h
    subst h
    simp [List.dropWhile_cons, hc]

lemma dropWhile_reverse_eq_self {l : List Char}
    (h : ∀ c, l.getLast? = some c → c ≠ ' ') :
    l.reverse.dropWhile (fun x => x = ' ') = l.reverse := by
  cases hr : l.reverse with
  | nil => simp
  | cons c cs =>
    have hl : l.getLast? = some c := by
      rw [← List.head?_reverse, hr]; rfl
    exact dropWhile_eq_self_of_head rfl (h c hl)

lemma joinData_ne_nil_cons (w : String) (ws : List String) :
    joinData (w :: ws) ≠ [] := by simp [joinData]

lemma getLast?_word_joinData (w : String) (ws : List String)
    (hw : goodToken w) (h : ∀ x ∈ ws, goodToken x) :
    ∀ c, (w.data ++ joinData ws).getLast? = some c → c ≠ ' ' := by
  induction ws generalizing w with
  | nil =>
    intro c hc
    simp only [joinData, List.append_nil] at hc
    obtain ⟨hne, hceq⟩ := List.mem_getLast?_eq_getLast (l := w.data) (x := c) hc
    exact hw.2 c (hceq ▸ List.getLast_mem hne)
  | cons x ws ih =>
    intro c hc
    have hx : x.data ++ joinData ws ≠ [] := by
      have := data_ne_nil_of_goodToken (h x (by simp))
      intro hmm
      exact this (List.append_eq_nil.mp hmm).1
    rw [show w.data ++ joinData (x :: ws) =
          (w.data ++ [' ']) ++ (x.data ++ joinData ws) by simp [joinData],
        List.getLast?_append_of_ne_nil _ hx] at hc
    exact ih x (h x (by simp)) (fun y hy => h y (by simp [hy])) c hc

lemma stripChars_cons_space (l : List Char) :
    stripChars (' ' :: l) = stripChars l := by
  unfold stripChars
  simp [List.dropWhile_cons]

lemma stripChars_eq_self (l : List Char)
    (hh : ∀ c, l.head? = some c → c ≠ ' ')
    (hl : ∀ c, l.getLast? = some c → c ≠ ' ') :
    stripChars l = l := by
  cases hd : l with
  | nil => rfl
  | cons a as =>
    have ha : a ≠ ' ' := hh a (by rw [hd]; rfl)
    unfold stripChars
    rw [dropWhile_eq_self_of_head (l := a :: as) rfl ha,
        ← hd, dropWhile_reverse_eq_self hl, List.reverse_reverse]

/-- Stripping the buffer holding the words `ws` yields them joined by single
spaces. -/
lemma pyStrip_joinWords (ws : List String) (h : ∀ w ∈ ws, goodToken w) :
    pyStrip (joinWords ws) = joinSp ws := by
  cases ws with
  | nil => rfl
  | cons w ws =>
    have hw := h w (by simp)
    have hws : ∀ x ∈ ws, goodToken x := fun x hx => h x (by simp [hx])
    apply String.ext
    show stripChars (joinWords (w :: ws)).data = (joinSp (w :: ws)).data
    rw [joinWords_data, joinSp_data]
    show stripChars (' ' :: (w.data ++ joinData ws)) = w.data ++ joinData ws
    obtain ⟨c, cs, hwd⟩ : ∃ c cs, w.data = c :: cs := by
      cases hd : w.data with
      | nil => exact absurd hd (data_ne_nil_of_goodToken hw)
      | cons c cs => exact ⟨c, cs, rfl⟩
    rw [stripChars_cons_space]
    refine stripChars_eq_self _ ?_ (getLast?_word_joinData w ws hw hws)
    intro d hd
    rw [hwd] at hd
    simp only [List.cons_append, List.head?_cons, Option.some.injEq] at hd
    exact hd ▸ hw.2 c (by rw [hwd]; simp)

example : pyStrip (joinWords ["aa", "b"]) = "aa b" := by decide

/-! ### The `current_time` accumulator -/

lemma foldl_blocks_time (info : WavInfo) (blocks : List Block) (st : TState) :
    (blocks.foldl (processBlock info) st).current_time =
      st.current_time +
        (blocks.map
          (fun b => (lenData info b.frames : ℚ) / (info.framerate : ℚ))).sum := by
  induction blocks generalizing st with
  | nil => simp
  | cons b bs ih =>
    rw [List.foldl_cons, ih]
    simp [processBlock]
    ring

lemma sum_div_list (l : List ℚ) (r : ℚ) :
    (l.map (fun x => x / r)).sum = l.sum / r := by
  induction l with
  | nil => simp
  | cons x xs ih => simp [ih, add_div]

/-- After the decode loop, `current_time` is `start_time` plus the total
number of bytes read, divided by the frame rate. -/
lemma decodeLoop_time (f : WavFile) (t : ℚ) :
    (decodeLoop f t).current_time =
      t + (totalDataLen f : ℚ) / (f.info.framerate : ℚ) := by
  rw [decodeLoop, foldl_blocks_time]
  congr 1
  rw [show f.blocks.map
        (fun b => (lenData f.info b.frames : ℚ) / (f.info.framerate : ℚ)) =
      (f.blocks.map (fun b => (lenData f.info b.frames : ℚ))).map
        (fun x => x / (f.info.framerate : ℚ)) by simp [List.map_map],
    sum_div_list, totalDataLen]
  congr 1
  rw [Nat.cast_list_sum, List.map_map]
  rfl

/-! ### Chunk formulas for `split_video` -/

lemma split_video_length (D L : Nat) :
    (split_video D L).length = (D + L - 1) / L := by
  simp [split_video, pyRange]

lemma split_video_get (D L : Nat) (i : Nat) (h : i < (split_video D L).length) :
    (split_video D L).get ⟨i, h⟩ = (i * L, min (i * L + L) D) := by
  simp [split_video, pyRange]

/-! ### Claims -/

/-- C3: for every video duration `D > 0` and chunk length `L > 0`,
`split_video` produces `ceil(D/L)` chunks whose `[start, end)` intervals are
consecutive, non-overlapping, cover `[0, D)` exactly once, each have length
at most `L`, and all but the last have length exactly `L` (the last truncated
to the remainder). -/
theorem C3_split_video_chunks (D L : Nat) (hD : 0 < D) (hL : 0 < L) :
    (split_video D L).length = (D + L - 1) / L ∧
    ((split_video D L).length : ℤ) = ⌈(D : ℚ) / (L : ℚ)⌉ ∧
    (∀ i (_ : i < (split_video D L).length) (h2 : i + 1 < (split_video D L).length),
      ((split_video D L).get ⟨i, by omega⟩).2 = ((split_video D L).get ⟨i + 1, h2⟩).1) ∧
    (∀ h0 : 0 < (split_video D L).length, ((split_video D L).get ⟨0, h0⟩).1 = 0) ∧
    (∀ hl : (split_video D L).length - 1 < (split_video D L).length,
      ((split_video D L).get ⟨(split_video D L).length - 1, hl⟩).2 = D) ∧
    (∀ i (h : i < (split_video D L).length),
      ((split_video D L).get ⟨i, h⟩).1 < ((split_video D L).get ⟨i, h⟩).2 ∧
      ((split_video D L).get ⟨i, h⟩).2 - ((split_video D L).get ⟨i, h⟩).1 ≤ L) ∧
    (∀ i (h : i < (split_video D L).length), i + 1 < (split_video D L).length →
      ((split_video D L).get ⟨i, h⟩).2 - ((split_video D L).get ⟨i, h⟩).1 = L) := by
  have key : L * ((D - 1) / L) + (D - 1) % L = D - 1 := Nat.div_add_mod _ _
  have hr : (D - 1) % L < L := Nat.mod_lt _ hL
  have hmc : ((D - 1) / L + 1) * L = L * ((D - 1) / L) + L := by ring
  have hn : (D + L - 1) / L = (D - 1) / L + 1 := by
    have h1 : D + L - 1 = (D - 1) % L + ((D - 1) / L + 1) * L := by omega
    rw [h1, Nat.add_mul_div_right _ _ hL, Nat.div_eq_of_lt hr]
    omega
  have hlen : (split_video D L).length = (D - 1) / L + 1 := by
    rw [split_video_length, hn]
  have hq : (D - 1) / L * L = L * ((D - 1) / L) := Nat.mul_comm _ _
  refine ⟨split_video_length D L, ?_, ?_, ?_, ?_, ?_, ?_⟩
  · rw [hlen]
    symm
    rw [Int.ceil_eq_iff]
    have hLQ : (0 : ℚ) < (L : ℚ) := by exact_mod_cast hL
    have hlt : ((D - 1) / L * L : ℕ) < D := by omega
    have hle2 : D ≤ (((D - 1) / L + 1) * L : ℕ) := by omega
    constructor
    · have h2 : ((((D - 1) / L * L : ℕ)) : ℚ) < (D : ℚ) := by exact_mod_cast hlt
      push_cast at h2 ⊢
      rw [add_sub_cancel_right, lt_div_iff₀ hLQ]
      exact h2
    · have h2 : (D : ℚ) ≤ (((((D - 1) / L + 1) * L : ℕ)) : ℚ) := by exact_mod_cast hle2
      push_cast at h2 ⊢
      rw [div_le_iff₀ hLQ]
      exact h2
  · intro i h1 h2
    rw [split_video_get, split_video_get]
    have hi : i + 1 ≤ (D - 1) / L := by omega
    have hmul : (i + 1) * L ≤ (D - 1) / L * L := Nat.mul_le_mul_right L hi
    have hiL : (i + 1) * L = i * L + L := by ring
    have hle : i * L + L ≤ D := by omega
    simp only [Nat.min_eq_left hle]
    omega
  · intro h0
    rw [split_video_get]
    simp
  · intro hl
    rw [split_video_get]
    simp only [hlen, Nat.add_sub_cancel]
    have hle : D ≤ (D - 1) / L * L + L := by omega
    simp [Nat.min_eq_right hle]
  · intro i h
    rw [split_video_get]
    have hi : i ≤ (D - 1) / L := by omega
    have hmul : i * L ≤ (D - 1) / L * L := Nat.mul_le_mul_right L hi
    have hiD : i * L < D := by omega
    constructor
    · exact lt_min (by omega) hiD
    · have := Nat.min_le_left (i * L + L) D
      omega
  · intro i h hi1
    rw [split_video_get]
    have hi : i + 1 ≤ (D - 1) / L := by omega
    have hmul : (i + 1) * L ≤ (D - 1) / L * L := Nat.mul_le_mul_right L hi
    have hiL : (i + 1) * L = i * L + L := by ring
    have hle : i * L + L ≤ D := by omega
    simp only [Nat.min_eq_left hle]
    omega

/-- Witness for C3 at `D = 7`, `L = 3`. -/
theorem C3_split_video_chunks_witness :
    0 < 7 ∧ 0 < 3 ∧
    ((split_video 7 3).length = (7 + 3 - 1) / 3 ∧
    ((split_video 7 3).length : ℤ) = ⌈(7 : ℚ) / (3 : ℚ)⌉ ∧
    (∀ i (_ : i < (split_video 7 3).length) (h2 : i + 1 < (split_video 7 3).length),
      ((split_video 7 3).get ⟨i, by omega⟩).2 = ((split_video 7 3).get ⟨i + 1, h2⟩).1) ∧
    (∀ h0 : 0 < (split_video 7 3).length, ((split_video 7 3).get ⟨0, h0⟩).1 = 0) ∧
    (∀ hl : (split_video 7 3).length - 1 < (split_video 7 3).length,
      ((split_video 7 3).get ⟨(split_video 7 3).length - 1, hl⟩).2 = 7) ∧
    (∀ i (h : i < (split_video 7 3).length),
      ((split_video 7 3).get ⟨i, h⟩).1 < ((split_video 7 3).get ⟨i, h⟩).2 ∧
      ((split_video 7 3).get ⟨i, h⟩).2 - ((split_video 7 3).get ⟨i, h⟩).1 ≤ 3) ∧
    (∀ i (h : i < (split_video 7 3).length), i + 1 < (split_video 7 3).length →
      ((split_video 7 3).get ⟨i, h⟩).2 - ((split_video 7 3).get ⟨i, h⟩).1 = 3)) :=
  ⟨by decide, by decide, C3_split_video_chunks 7 3 (by decide) (by decide)⟩

/-- C1, counterexample to the claim as stated: with the stream
`[a@3s, b@6s]` (one block, `start_time = 0`), at the word `b` the buffer
holds one token (`< 10`) and the gap between `b`'s absolute time and the
first buffered word `a`'s absolute time is `3 < 5` seconds — neither claimed
flush condition holds — yet the code flushes a line (`word_start -
current_time = 6 ≥ 5`, the code's gap being the word's raw decoder offset,
not the distance to the first buffered word).  The full run confirms the
flushed line `[00:06] a`. -/
theorem C1_counterexample :
    tokenCount (processWord 0 ("", []) ⟨"a", 3⟩).1 = 1 ∧
    ((6 : ℚ) + 0) - ((3 : ℚ) + 0) < 5 ∧
    (processWord 0 (processWord 0 ("", []) ⟨"a", 3⟩) ⟨"b", 6⟩).2.length = 1 ∧
    (runTranscriber ⟨⟨1, 2, 16000⟩, [⟨4000, [⟨"a", 3⟩, ⟨"b", 6⟩]⟩]⟩ 0).lines =
      [⟨0, 6, "a"⟩, ⟨0, 0, "b"⟩] := by
  with_unfolding_all decide

/-- C1 as amended: a flush of the word buffer occurs at a word exactly when
the buffer already holds at least 10 space-separated tokens, or the word's
decoder-reported start offset (`word_start - current_time`, which cancels to
`word_info["start"]` — the reference time being the `current_time`
accumulator, not the first buffered word's absolute time) is at least 5
seconds; no flush occurs for any word satisfying neither condition. -/
theorem C1_flush_rule (current_time : ℚ) (buffer : String) (lines : List Line)
    (wi : WordInfo) :
    ((processWord current_time (buffer, lines) wi).2.length = lines.length + 1 ↔
      (10 ≤ tokenCount buffer ∨ 5 ≤ wi.start)) ∧
    ((processWord current_time (buffer, lines) wi).2 = lines ↔
      ¬(10 ≤ tokenCount buffer ∨ 5 ≤ wi.start)) := by
  simp only [processWord, add_sub_cancel_right]
  split_ifs with hc
  · constructor
    · simp [hc]
    · constructor
      · intro hcontra
        have := congrArg List.length hcontra
        simp at this
      · intro hcontra
        exact absurd hc hcontra
  · simp [hc]

/-- C2, counterexample to the claim as stated: in the run with blocks
`[a@2s, b@70s]` then `[c@59.7s]` (`start_time = 0`), the first flushed line is
tagged `[01:10]` — the floor minute/second of the *flush-triggering* word
`b`'s time — not `[00:02]`, the first buffered word `a`'s absolute time as
the claim requires; moreover the third line's tag `[01:00]` differs from
`[00:59]`, the tag the claim's rule "absolute time = in-chunk offset +
start_time" would give for `c` (the code adds the running accumulator
`current_time`, here `0.5`, not `start_time`). -/
theorem C2_counterexample :
    (runTranscriber ⟨⟨1, 2, 16000⟩,
        [⟨4000, [⟨"a", 2⟩, ⟨"b", 70⟩]⟩, ⟨240000, [⟨"c", 59.7⟩]⟩]⟩ 0).lines =
      [⟨1, 10, "a"⟩, ⟨1, 0, "b"⟩, ⟨0, 30, "c"⟩] ∧
    (⌊((2 : ℚ) + 0) / 60⌋, ⌊pyMod ((2 : ℚ) + 0) 60⌋) = ((0 : ℤ), (2 : ℤ)) ∧
    ((1 : ℤ), (10 : ℤ)) ≠ ((0 : ℤ), (2 : ℤ)) ∧
    (⌊((59.7 : ℚ) + 0) / 60⌋, ⌊pyMod ((59.7 : ℚ) + 0) 60⌋) = ((0 : ℤ), (59 : ℤ)) ∧
    ((1 : ℤ), (0 : ℤ)) ≠ ((0 : ℤ), (59 : ℤ)) := by
  with_unfolding_all decide

/-- C2 as amended: every mid-stream flushed line is tagged with the floor
minute and second of the *flush-triggering* word's time
`word_start = word_info["start"] + current_time` (the accumulator, which
equals `start_time` only while the first block is being decoded), and the
line's text is the stripped buffer — the previously buffered words joined by
single spaces; the triggering word itself is not part of the line. -/
theorem C2_flush_line_rule (current_time : ℚ) (ws : List String)
    (lines : List Line) (wi : WordInfo) (hgood : ∀ w ∈ ws, goodToken w)
    (hflush : 10 ≤ tokenCount (joinWords ws) ∨ 5 ≤ wi.start) :
    (processWord current_time (joinWords ws, lines) wi).2 =
      lines ++ [⟨⌊(wi.start + current_time) / 60⌋,
                 ⌊pyMod (wi.start + current_time) 60⌋, joinSp ws⟩] := by
  simp only [processWord, add_sub_cancel_right]
  split_ifs
  simp [pyStrip_joinWords ws hgood]

/-- Witness for C2 as amended, at the buffer `["hello"]` and the word
`x@7s`. -/
theorem C2_flush_line_rule_witness :
    (∀ w ∈ ["hello"], goodToken w) ∧
    (10 ≤ tokenCount (joinWords ["hello"]) ∨ 5 ≤ ((7 : ℚ))) ∧
    (processWord 0 (joinWords ["hello"], []) ⟨"x", 7⟩).2 =
      [] ++ [⟨⌊((7 : ℚ) + 0) / 60⌋, ⌊pyMod ((7 : ℚ) + 0) 60⌋, joinSp ["hello"]⟩] :=
  ⟨by decide, Or.inr (by norm_num),
   C2_flush_line_rule 0 ["hello"] [] ⟨"x", 7⟩ (by decide)
     (Or.inr (by norm_num))⟩

/-- C9, counterexample to the claim as stated: for a 16-bit mono 16 kHz file
of 1,600,000 frames (100 s of audio) holding the single word `hi@0s`, the
final accumulator is `200`, not `start_time + total audio duration consumed
= 0 + 100` — the code adds `len(data) / framerate` where `len(data)` counts
*bytes* (two per frame here) — and accordingly the end-of-stream flush is
tagged `[03:20]`, not the `[01:40]` the claimed characterization gives. -/
theorem C9_counterexample :
    (runTranscriber ⟨⟨1, 2, 16000⟩, [⟨1600000, [⟨"hi", 0⟩]⟩]⟩ 0).current_time
        = 200 ∧
    totalAudioDuration ⟨⟨1, 2, 16000⟩, [⟨1600000, [⟨"hi", 0⟩]⟩]⟩ = 100 ∧
    (200 : ℚ) ≠ 0 + 100 ∧
    (runTranscriber ⟨⟨1, 2, 16000⟩, [⟨1600000, [⟨"hi", 0⟩]⟩]⟩ 0).lines =
      [⟨3, 20, "hi"⟩] ∧
    (⌊((0 : ℚ) + 100) / 60⌋, ⌊pyMod ((0 : ℚ) + 100) 60⌋) = ((1 : ℤ), (40 : ℤ)) ∧
    ((3 : ℤ), (20 : ℤ)) ≠ ((1 : ℤ), (40 : ℤ)) := by
  with_unfolding_all decide

/-- C9 as amended: at end-of-stream, if the stripped word buffer is nonempty,
exactly one more line is flushed, timestamped from the `current_time`
accumulator — which equals `start_time` plus the total number of *bytes* read
divided by the frame rate (twice the audio duration for 16-bit mono files),
not the last word's own timestamp — and carrying the stripped buffer. -/
theorem C9_eos_flush (f : WavFile) (start_time : ℚ)
    (h : pyStrip (decodeLoop f start_time).buffer ≠ "") :
    (runTranscriber f start_time).lines =
      (decodeLoop f start_time).lines ++
        [⟨⌊(start_time + (totalDataLen f : ℚ) / (f.info.framerate : ℚ)) / 60⌋,
          ⌊pyMod (start_time + (totalDataLen f : ℚ) / (f.info.framerate : ℚ)) 60⌋,
          pyStrip (decodeLoop f start_time).buffer⟩] := by
  simp only [runTranscriber]
  rw [if_neg h, decodeLoop_time]

/-- Witness for C9 as amended: one block of 4000 frames with the single word
`hi@0s` leaves `hi` in the buffer. -/
theorem C9_eos_flush_witness :
    pyStrip (decodeLoop ⟨⟨1, 2, 16000⟩, [⟨4000, [⟨"hi", 0⟩]⟩]⟩ 0).buffer ≠ "" ∧
    (runTranscriber ⟨⟨1, 2, 16000⟩, [⟨4000, [⟨"hi", 0⟩]⟩]⟩ 0).lines =
      (decodeLoop ⟨⟨1, 2, 16000⟩, [⟨4000, [⟨"hi", 0⟩]⟩]⟩ 0).lines ++
        [⟨⌊((0 : ℚ) + (totalDataLen ⟨⟨1, 2, 16000⟩, [⟨4000, [⟨"hi", 0⟩]⟩]⟩ : ℚ)
              / ((16000 : ℕ) : ℚ)) / 60⌋,
          ⌊pyMod ((0 : ℚ) + (totalDataLen ⟨⟨1, 2, 16000⟩, [⟨4000, [⟨"hi", 0⟩]⟩]⟩ : ℚ)
              / ((16000 : ℕ) : ℚ)) 60⌋,
          pyStrip (decodeLoop ⟨⟨1, 2, 16000⟩, [⟨4000, [⟨"hi", 0⟩]⟩]⟩ 0).buffer⟩] :=
  ⟨by with_unfolding_all decide,
   C9_eos_flush ⟨⟨1, 2, 16000⟩, [⟨4000, [⟨"hi", 0⟩]⟩]⟩ 0
     (by with_unfolding_all decide)⟩

/-- C10: when the 5-second gap condition triggers while the word buffer is
empty, a line with an empty text span is written — the flush branch has no
non-empty-buffer guard — and only the end-of-stream flush is guarded by a
non-empty (stripped) buffer check. -/
theorem C10_empty_flush (current_time : ℚ) (lines : List Line) (wi : WordInfo)
    (h : 5 ≤ wi.start) :
    (processWord current_time ("", lines) wi).2 =
      lines ++ [⟨⌊(wi.start + current_time) / 60⌋,
                 ⌊pyMod (wi.start + current_time) 60⌋, ""⟩] ∧
    ∀ (f : WavFile) (st : ℚ), pyStrip (decodeLoop f st).buffer = "" →
      (runTranscriber f st).lines = (decodeLoop f st).lines := by
  constructor
  · simp only [processWord, add_sub_cancel_right]
    split_ifs with hc
    · rfl
    · exact absurd (Or.inr h) hc
  · intro f st hb
    simp only [runTranscriber]
    rw [if_pos hb]

/-- Witness for C10 at the word `x@6s` reaching an empty buffer, together
with the rendered form of the resulting line: `"[00:06] \n"`, a line with no
words after the space. -/
theorem C10_empty_flush_witness :
    (5 : ℚ) ≤ 6 ∧
    ((processWord 0 ("", []) ⟨"x", 6⟩).2 =
      [] ++ [⟨⌊((6 : ℚ) + 0) / 60⌋, ⌊pyMod ((6 : ℚ) + 0) 60⌋, ""⟩] ∧
    ∀ (f : WavFile) (st : ℚ), pyStrip (decodeLoop f st).buffer = "" →
      (runTranscriber f st).lines = (decodeLoop f st).lines) ∧
    (⌊((6 : ℚ) + 0) / 60⌋, ⌊pyMod ((6 : ℚ) + 0) 60⌋) = ((0 : ℤ), (6 : ℤ)) ∧
    renderLine ⟨0, 6, ""⟩ = "[00:06] \n" :=
  ⟨by norm_num, C10_empty_flush 0 [] ⟨"x", 6⟩ (by norm_num),
   by with_unfolding_all decide, by with_unfolding_all decide⟩

/-- C8: when the acoustic-model path does not exist, the model-not-found
error (`FileNotFoundError`, the spec's ModelNotFoundError) is raised before
any frame of the waveform is read for decoding: no frames are read, no lines
are written, and no normalization happens. -/
theorem C8_model_missing (env : RecEnv) (audio_path output_dir : PyPath)
    (start_time : ℚ) (h : env.model_exists = false) :
    (recognize_speech_from_audio env audio_path output_dir start_time).raisedModelNotFound
        = true ∧
    (recognize_speech_from_audio env audio_path output_dir start_time).framesRead = 0 ∧
    (recognize_speech_from_audio env audio_path output_dir start_time).lines = [] ∧
    (recognize_speech_from_audio env audio_path output_dir start_time).normalized
        = false := by
  simp [recognize_speech_from_audio, h]

/-- Witness for C8: a call with a missing model and a malformed waveform. -/
theorem C8_model_missing_witness :
    (RecEnv.mk false (some ⟨⟨2, 2, 44100⟩, []⟩) ⟨⟨1, 2, 16000⟩, []⟩).model_exists
        = false ∧
    ((recognize_speech_from_audio
        ⟨false, some ⟨⟨2, 2, 44100⟩, []⟩, ⟨⟨1, 2, 16000⟩, []⟩⟩
        ["out", "a.wav"] ["out"] 0).raisedModelNotFound = true ∧
    (recognize_speech_from_audio
        ⟨false, some ⟨⟨2, 2, 44100⟩, []⟩, ⟨⟨1, 2, 16000⟩, []⟩⟩
        ["out", "a.wav"] ["out"] 0).framesRead = 0 ∧
    (recognize_speech_from_audio
        ⟨false, some ⟨⟨2, 2, 44100⟩, []⟩, ⟨⟨1, 2, 16000⟩, []⟩⟩
        ["out", "a.wav"] ["out"] 0).lines = [] ∧
    (recognize_speech_from_audio
        ⟨false, some ⟨⟨2, 2, 44100⟩, []⟩, ⟨⟨1, 2, 16000⟩, []⟩⟩
        ["out", "a.wav"] ["out"] 0).normalized = false) :=
  ⟨rfl, C8_model_missing ⟨false, some ⟨⟨2, 2, 44100⟩, []⟩, ⟨⟨1, 2, 16000⟩, []⟩⟩
     ["out", "a.wav"] ["out"] 0 rfl⟩

/-- C7, counterexample to the claim as stated: when the model path is missing
and the waveform fails the header check (stereo 44.1 kHz here), the function
raises before the validation, so the normalizer is *not* invoked although the
waveform fails the check — the claimed "if and only if" fails. -/
theorem C7_counterexample :
    (recognize_speech_from_audio
        ⟨false, some ⟨⟨2, 2, 44100⟩, []⟩, ⟨⟨1, 2, 16000⟩, []⟩⟩
        ["out", "a.wav"] ["out"] 0).normalized = false ∧
    headerOk ⟨false, some ⟨⟨2, 2, 44100⟩, []⟩, ⟨⟨1, 2, 16000⟩, []⟩⟩ = false := by
  with_unfolding_all decide

/-- C7 as amended: provided the model path exists (otherwise the
model-not-found error preempts everything), the normalizer is invoked if and
only if the input waveform fails the header-validation check (channels ≠ 1,
or sample width ≠ 2 bytes, or frame rate not in {8000, 16000, 32000}, or the
file cannot be parsed as WAV); a waveform passing the check is never
speculatively normalized and is transcribed as-is. -/
theorem C7_lazy_normalization (env : RecEnv) (p out : PyPath) (st : ℚ)
    (h : env.model_exists = true) :
    ((recognize_speech_from_audio env p out st).normalized = true ↔
      headerOk env = false) ∧
    (∀ f, env.orig = some f → checkWav f.info = true →
      (recognize_speech_from_audio env p out st).normalized = false ∧
      (recognize_speech_from_audio env p out st).convertedPath = none ∧
      (recognize_speech_from_audio env p out st).lines =
        (runTranscriber f st).lines) := by
  obtain ⟨me, orig, conv⟩ := env
  subst h
  cases orig with
  | none => simp [recognize_speech_from_audio, headerOk]
  | some f =>
    by_cases hc : checkWav f.info
    · simp [recognize_speech_from_audio, headerOk, hc]
    · simp [recognize_speech_from_audio, headerOk, hc]

/-- Witness for C7 as amended: an existing model and a valid mono 16-bit
16 kHz waveform. -/
theorem C7_lazy_normalization_witness :
    (RecEnv.mk true (some ⟨⟨1, 2, 16000⟩, []⟩) ⟨⟨1, 2, 16000⟩, []⟩).model_exists
        = true ∧
    (((recognize_speech_from_audio
        ⟨true, some ⟨⟨1, 2, 16000⟩, []⟩, ⟨⟨1, 2, 16000⟩, []⟩⟩
        ["out", "a.wav"] ["out"] 0).normalized = true ↔
      headerOk ⟨true, some ⟨⟨1, 2, 16000⟩, []⟩, ⟨⟨1, 2, 16000⟩, []⟩⟩ = false) ∧
    (∀ f, (RecEnv.mk true (some ⟨⟨1, 2, 16000⟩, []⟩) ⟨⟨1, 2, 16000⟩, []⟩).orig
        = some f → checkWav f.info = true →
      (recognize_speech_from_audio
        ⟨true, some ⟨⟨1, 2, 16000⟩, []⟩, ⟨⟨1, 2, 16000⟩, []⟩⟩
        ["out", "a.wav"] ["out"] 0).normalized = false ∧
      (recognize_speech_from_audio
        ⟨true, some ⟨⟨1, 2, 16000⟩, []⟩, ⟨⟨1, 2, 16000⟩, []⟩⟩
        ["out", "a.wav"] ["out"] 0).convertedPath = none ∧
      (recognize_speech_from_audio
        ⟨true, some ⟨⟨1, 2, 16000⟩, []⟩, ⟨⟨1, 2, 16000⟩, []⟩⟩
        ["out", "a.wav"] ["out"] 0).lines = (runTranscriber f 0).lines)) :=
  ⟨rfl, C7_lazy_normalization ⟨true, some ⟨⟨1, 2, 16000⟩, []⟩, ⟨⟨1, 2, 16000⟩, []⟩⟩
     ["out", "a.wav"] ["out"] 0 rfl⟩

/-- C6, counterexample to the claim as stated: for output directory `out` and
an audio file needing normalization, the normalized waveform's target is
`out/results/wav_files/<name>_converted.wav` — a `wav_files` subdirectory of
the `results` transcript directory (`output_dir` is rebound to
`Path(output_dir, 'results')` before the normalizer call) — not the claimed
sibling `out/wav_files/<name>_converted.wav`. -/
theorem C6_counterexample :
    (recognize_speech_from_audio
        ⟨true, some ⟨⟨2, 2, 44100⟩, []⟩, ⟨⟨1, 2, 16000⟩, []⟩⟩
        ["out", "chunk_0-300.wav"] ["out"] 0).convertedPath =
      some ["out", "results", "wav_files", "chunk_0-300_converted.wav"] ∧
    (["out", "results", "wav_files", "chunk_0-300_converted.wav"] : PyPath) ≠
      ["out", "wav_files", "chunk_0-300_converted.wav"] := by
  with_unfolding_all decide

/-- C6 as amended: the normalized waveform is written to
`<output_dir>/results/wav_files/<basename>_converted.wav` (inside the
transcript directory, because the function rebinds its `output_dir` to the
`results` subdirectory before invoking the normalizer), and such a file is
created exactly when normalization happened — which requires the header
validation to have failed. -/
theorem C6_normalized_target (env : RecEnv) (p out : PyPath) (st : ℚ) :
    ((recognize_speech_from_audio env p out st).convertedPath =
      if (recognize_speech_from_audio env p out st).normalized then
        some (((out ++ ["results"]) ++ ["wav_files"]) ++
          [pyReplace (pyBasename p) ".wav" "_converted.wav"])
      else none) ∧
    ((recognize_speech_from_audio env p out st).normalized = true →
      headerOk env = false) := by
  obtain ⟨me, orig, conv⟩ := env
  cases me
  · simp [recognize_speech_from_audio]
  · cases orig with
    | none =>
      simp [recognize_speech_from_audio, convert_audio_to_vosk_format,
        pathJoin, headerOk]
    | some f =>
      by_cases hc : checkWav f.info
      · simp [recognize_speech_from_audio, convert_audio_to_vosk_format,
          pathJoin, headerOk, hc]
      · simp [recognize_speech_from_audio, convert_audio_to_vosk_format,
          pathJoin, headerOk, hc]

/-- C4, evaluation at the failing input: the driver calls the transcriber
without `start_time` — every chunk is decoded with the default
`start_time = 0` — so for a two-chunk run whose chunks each produce lines
stamped `[00:06]` and `[00:20]`, the concatenated transcript timestamps are
`6, 20, 6, 20`, which is not monotone; threading the first chunk's 10-second
duration (as the claim describes) would have produced different, later
stamps for the second chunk. -/
theorem C4_driver_restarts_clock :
    (driver_traces [⟨chunkEnv, ["out", "chunk_0-300.wav"]⟩,
        ⟨chunkEnv, ["out", "chunk_300-600.wav"]⟩] ["out"]).map
      (fun t => t.lines) =
      [[⟨0, 6, "a"⟩, ⟨0, 20, "b"⟩], [⟨0, 6, "a"⟩, ⟨0, 20, "b"⟩]] ∧
    ([⟨0, 6, "a"⟩, ⟨0, 20, "b"⟩, ⟨0, 6, "a"⟩, ⟨0, 20, "b"⟩] : List Line).map
      lineStamp = [6, 20, 6, 20] ∧
    ¬ List.Chain' (fun a b : ℤ => a ≤ b) [6, 20, 6, 20] ∧
    (recognize_speech_from_audio chunkEnv ["out", "chunk_300-600.wav"]
        ["out"] 0).lines ≠
      (recognize_speech_from_audio chunkEnv ["out", "chunk_300-600.wav"]
        ["out"] 10).lines :=
  ⟨by with_unfolding_all decide, by with_unfolding_all decide,
   by intro h; norm_num [List.chain'_cons] at h,
   by with_unfolding_all decide⟩

/-- C5, evaluation at the failing input: `recognize_speech_from_audio` has no
`return` statement, so the driver's `str(text) + '\n'` turns every chunk's
contribution into `"None\n"`: for a one-chunk run whose transcript file holds
two real lines, `process_video_to_text` returns `"None\n"`, not the chunk's
recognized text. -/
theorem C5_driver_returns_none :
    process_video_to_text [⟨chunkEnv, ["out", "chunk_0-300.wav"]⟩] ["out"]
        = "None\n" ∧
    (recognize_speech_from_audio chunkEnv ["out", "chunk_0-300.wav"]
        ["out"] 0).retval = none ∧
    (recognize_speech_from_audio chunkEnv ["out", "chunk_0-300.wav"]
        ["out"] 0).lines = [⟨0, 6, "a"⟩, ⟨0, 20, "b"⟩] ∧
    ([⟨0, 6, "a"⟩, ⟨0, 20, "b"⟩] : List Line) ≠ [] := by
  with_unfolding_all decide

end SpeechPipeline
